import Mathlib

/-!
Verification of the workload-analytics backend: a shallow embedding of the
Express controllers (`userController.js`, `workloadController.js`), the route
validation chains, and the Mongoose `WorkloadData` schema, together with
theorems settling the specification's testable properties.

Conventions of the embedding:
* Mongo documents become Lean structures; object ids become `Nat`.
* Dates become `Int` timestamps (only their ordering matters).
* `hoursSpent` and aggregate sums become `Rat` (exact arithmetic standing in
  for JS numbers; no claim here depends on floating-point rounding).
* JSON responses are modelled by an explicit `Json` tree so that statements
  about which *fields* a response carries (e.g. the absence of `password`)
  are statements about the actual serialized shape.
* The Mongoose `User` model file is not part of the sources; the pieces of it
  that matter (`getPublicProfile`, the password hash, schema defaults) are
  modelled from the spec and marked as such in their doc comments.
-/

/-- The `role` enum of the user schema: `['admin', 'user', 'manager']`
(from the route validation in `routes/users.js`). -/
inductive Role where
  | admin
  | manager
  | user
deriving DecidableEq, Repr

/-- The `taskType` enum of the `WorkloadData` schema:
`['development', 'bug-fix', 'review', 'meeting', 'documentation', 'other']`. -/
inductive TaskType where
  | development
  | bugFix
  | review
  | meeting
  | documentation
  | other
deriving DecidableEq, Repr

/-- The `status` enum of the `WorkloadData` schema:
`['planned', 'in-progress', 'completed', 'blocked']`. -/
inductive WStatus where
  | planned
  | inProgress
  | completed
  | blocked
deriving DecidableEq, Repr

/-- The `priority` enum of the `WorkloadData` schema: `['high', 'medium', 'low']`. -/
inductive WPriority where
  | high
  | medium
  | low
deriving DecidableEq, Repr

def roleToString : Role → String
  | .admin => "admin"
  | .manager => "manager"
  | .user => "user"

/-- Parse a raw role string against the schema enum (Mongoose enum validation). -/
def roleOfString : String → Option Role
  | "admin" => some Role.admin
  | "manager" => some Role.manager
  | "user" => some Role.user
  | _ => none

def taskTypeToString : TaskType → String
  | .development => "development"
  | .bugFix => "bug-fix"
  | .review => "review"
  | .meeting => "meeting"
  | .documentation => "documentation"
  | .other => "other"

def statusToString : WStatus → String
  | .planned => "planned"
  | .inProgress => "in-progress"
  | .completed => "completed"
  | .blocked => "blocked"

def priorityToString : WPriority → String
  | .high => "high"
  | .medium => "medium"
  | .low => "low"

/-- A stored `User` document.  The Mongoose `User` model file is not among the
sources; the fields are those used by the controllers, the middleware and the
tests (`_id`, `username`, `email`, `password` hash, `role`, `isActive`,
`lastLogin`, `createdAt`), with the spec's data model (§3) fixing their kinds.
`password` holds the stored credential hash. -/
structure User where
  id : Nat
  username : String
  email : String
  password : String
  role : Role
  isActive : Bool
  lastLogin : Option Int
  createdAt : Int
deriving DecidableEq, Repr

/-- A stored `WorkloadData` document, translated field-for-field from the
`workloadDataSchema` in the sources. -/
structure WorkloadData where
  id : Nat
  developer : Nat
  project : String
  taskName : String
  taskType : TaskType
  hoursSpent : Rat
  date : Int
  status : WStatus
  priority : WPriority
  description : Option String
  blockers : Option String
  tags : List String
  dependencies : List Nat
  createdAt : Int
  updatedAt : Int
deriving DecidableEq, Repr

/-- JSON values, used to model the serialized HTTP responses. -/
inductive Json where
  | null : Json
  | str : String → Json
  | num : Rat → Json
  | bool : Bool → Json
  | arr : List Json → Json
  | obj : List (String × Json) → Json

mutual

/-- Does key `k` occur as a field name anywhere in the JSON tree? -/
def jsonHasKey (k : String) : Json → Bool
  | .obj fields => fieldsHasKey k fields
  | .arr xs => itemsHasKey k xs
  | _ => false

/-- Does key `k` occur anywhere in a list of JSON values? -/
def itemsHasKey (k : String) : List Json → Bool
  | [] => false
  | j :: js => jsonHasKey k j || itemsHasKey k js

/-- Does key `k` occur in a field list, as a name or inside a value? -/
def fieldsHasKey (k : String) : List (String × Json) → Bool
  | [] => false
  | f :: fs => f.1 == k || jsonHasKey k f.2 || fieldsHasKey k fs

end

example : jsonHasKey "password"
    (Json.obj [("a", Json.arr [Json.obj [("password", Json.null)]])]) = true := by
  simp [jsonHasKey, itemsHasKey, fieldsHasKey]

example : jsonHasKey "password"
    (Json.obj [("a", Json.arr [Json.obj [("pw", Json.str "x")]])]) = false := by
  simp [jsonHasKey, itemsHasKey, fieldsHasKey]

/-- The full serialized `User` document, `password` hash included. -/
def userDoc (u : User) : List (String × Json) :=
  [("_id", Json.num u.id),
   ("username", Json.str u.username),
   ("email", Json.str u.email),
   ("password", Json.str u.password),
   ("role", Json.str (roleToString u.role)),
   ("isActive", Json.bool u.isActive),
   ("lastLogin", match u.lastLogin with | some t => Json.num t | none => Json.null),
   ("createdAt", Json.num u.createdAt)]

/-- Mongoose `.select('-password')` / the `-password` populate projection:
drop the `password` field from a document. -/
def selectMinusPassword (doc : List (String × Json)) : List (String × Json) :=
  doc.filter (fun p => p.1 != "password")

/-- Modelled from the spec: the `User` model file (with its
`getPublicProfile` method) is not among the sources.  Per the spec's glossary,
a credential-stripped projection is "a copy of a user record with the
secret-hash field removed before transmission". -/
def getPublicProfile (u : User) : List (String × Json) :=
  selectMinusPassword (userDoc u)

/-- Modelled from the spec: the `User` model's pre-save hashing is not among
the sources; the spec records only that the credential is "stored only as an
irreversible hash, never plaintext".  Modelled as an abstract tagged
transformation of the plaintext. -/
def hashPassword (plain : String) : String :=
  String.append "bcrypt$" plain

/-- The serialized `WorkloadData` document; `dev` is the value of the
`developer` field (a populated sub-document or a raw id). -/
def workloadDoc (w : WorkloadData) (dev : Json) : List (String × Json) :=
  [("_id", Json.num w.id),
   ("developer", dev),
   ("project", Json.str w.project),
   ("taskName", Json.str w.taskName),
   ("taskType", Json.str (taskTypeToString w.taskType)),
   ("hoursSpent", Json.num w.hoursSpent),
   ("date", Json.num w.date),
   ("status", Json.str (statusToString w.status)),
   ("priority", Json.str (priorityToString w.priority)),
   ("description", match w.description with | some s => Json.str s | none => Json.null),
   ("blockers", match w.blockers with | some s => Json.str s | none => Json.null),
   ("tags", Json.arr (w.tags.map Json.str)),
   ("dependencies", Json.arr (w.dependencies.map (fun d => Json.num d))),
   ("createdAt", Json.num w.createdAt),
   ("updatedAt", Json.num w.updatedAt)]

/-- Model of `.populate('developer', '-password')`: expand the owner reference into the
stored user document with the password hash projected away (`null` when the
referenced user is gone). -/
def populatedDeveloper (ustore : List User) (d : Nat) : Json :=
  match ustore.find? (fun u => u.id == d) with
  | some u => Json.obj (selectMinusPassword (userDoc u))
  | none => Json.null

/-- Insert into a list kept in descending `key` order. -/
def insertDescBy {α β : Type} [LinearOrder β] (key : α → β) (x : α) :
    List α → List α
  | [] => [x]
  | y :: ys => if key y ≤ key x then x :: y :: ys else y :: insertDescBy key x ys

/-- Sort a list into descending `key` order (models a Mongo `$sort: {k: -1}`). -/
def sortDescBy {α β : Type} [LinearOrder β] (key : α → β) : List α → List α
  | [] => []
  | x :: xs => insertDescBy key x (sortDescBy key xs)

theorem mem_insertDescBy {α β : Type} [LinearOrder β] (key : α → β) (x : α)
    (l : List α) (a : α) : a ∈ insertDescBy key x l ↔ a = x ∨ a ∈ l := by
  induction l with
  | nil => simp [insertDescBy]
  | cons y ys ih =>
    by_cases h : key y ≤ key x
    · simp [insertDescBy, h]
    · simp only [insertDescBy, if_neg h, List.mem_cons, ih]
      tauto

theorem mem_sortDescBy {α β : Type} [LinearOrder β] (key : α → β)
    (l : List α) (a : α) : a ∈ sortDescBy key l ↔ a ∈ l := by
  induction l with
  | nil => simp [sortDescBy]
  | cons x xs ih => simp [sortDescBy, mem_insertDescBy, ih]

theorem pairwise_insertDescBy {α β : Type} [LinearOrder β] (key : α → β)
    (x : α) (l : List α) (h : l.Pairwise (fun a b => key b ≤ key a)) :
    (insertDescBy key x l).Pairwise (fun a b => key b ≤ key a) := by
  induction l with
  | nil => simp [insertDescBy]
  | cons y ys ih =>
    rcases List.pairwise_cons.mp h with ⟨hy, hys⟩
    by_cases hxy : key y ≤ key x
    · rw [insertDescBy, if_pos hxy]
      refine List.pairwise_cons.mpr ⟨?_, h⟩
      intro b hb
      rcases List.mem_cons.mp hb with rfl | hb
      · exact hxy
      · exact le_trans (hy b hb) hxy
    · rw [insertDescBy, if_neg hxy]
      refine List.pairwise_cons.mpr ⟨?_, ih hys⟩
      intro b hb
      rcases (mem_insertDescBy key x ys b).mp hb with rfl | hb
      · exact le_of_lt (lt_of_not_le hxy)
      · exact hy b hb

theorem pairwise_sortDescBy {α β : Type} [LinearOrder β] (key : α → β)
    (l : List α) : (sortDescBy key l).Pairwise (fun a b => key b ≤ key a) := by
  induction l with
  | nil => simp [sortDescBy]
  | cons x xs ih => exact pairwise_insertDescBy key x _ ih

/-- JavaScript's `Math.ceil(total / limit)` on naturals (`limit > 0`). -/
def jsCeilDiv (total limit : Nat) : Nat :=
  (total + limit - 1) / limit

theorem jsCeilDiv_eq_ceil (t l : Nat) (hl : 0 < l) :
    (jsCeilDiv t l : ℕ) = ⌈(t : ℚ) / (l : ℚ)⌉₊ := by
  have hl' : (0 : ℚ) < (l : ℚ) := by exact_mod_cast hl
  refine le_antisymm ?_ ?_
  · have hc := Nat.le_ceil ((t : ℚ) / (l : ℚ))
    set c := ⌈(t : ℚ) / (l : ℚ)⌉₊ with hc_def
    have ht : (t : ℚ) ≤ (c : ℚ) * (l : ℚ) := by
      have := (div_le_iff₀ hl').mp hc
      linarith
    have htn : t ≤ c * l := by exact_mod_cast ht
    have : t + l - 1 ≤ l * c + (l - 1) := by
      have : c * l = l * c := Nat.mul_comm c l
      omega
    calc jsCeilDiv t l = (t + l - 1) / l := rfl
      _ ≤ c := (Nat.div_le_iff_le_mul_add_pred hl).mpr this
  · refine Nat.ceil_le.mpr ?_
    rw [div_le_iff₀ hl']
    have h1 := Nat.div_add_mod (t + l - 1) l
    have h2 := Nat.mod_lt (t + l - 1) hl
    have : t ≤ l * ((t + l - 1) / l) := by omega
    have : (t : ℚ) ≤ (l : ℚ) * ((jsCeilDiv t l : ℕ) : ℚ) := by
      exact_mod_cast this
    linarith

/-- Does `needle` occur at the head of `hay`? -/
def listStartsWith [BEq α] : List α → List α → Bool
  | [], _ => true
  | _ :: _, [] => false
  | a :: as, b :: bs => a == b && listStartsWith as bs

/-- Does `needle` occur contiguously anywhere in `hay`? -/
def listOccurs [BEq α] (needle : List α) : List α → Bool
  | [] => listStartsWith needle []
  | b :: bs => listStartsWith needle (b :: bs) || listOccurs needle bs

/-- Case-insensitive substring test, modelling
`{ $regex: search, $options: 'i' }` on plain (regex-free) search strings. -/
def strContainsCI (hay needle : String) : Bool :=
  listOccurs needle.toLower.toList hay.toLower.toList

/-- The `getUsers` query predicate: an empty `search` adds no clause, a
non-empty one requires a case-insensitive match on username or email; a
present `role` parameter filters exactly. -/
def userMatchesQuery (search : String) (roleF : Option Role) (u : User) : Bool :=
  (search == "" || strContainsCI u.username search || strContainsCI u.email search) &&
  (match roleF with | some r => u.role == r | none => true)

/-- The components of the `getUsers` response. -/
structure UsersPage where
  users : List User
  total : Nat
  page : Nat
  pages : Nat
deriving DecidableEq, Repr

/-- Model of `getUsers` (admin-only route): filter, sort by `createdAt` descending,
skip `(page-1)*limit`, take `limit`; `pages = Math.ceil(total/limit)`. -/
def getUsers (store : List User) (search : String) (roleF : Option Role)
    (page limit : Nat) : UsersPage :=
  let q := store.filter (userMatchesQuery search roleF)
  let sorted := sortDescBy (fun u => u.createdAt) q
  { users := (sorted.drop ((page - 1) * limit)).take limit
    total := q.length
    page := page
    pages := jsCeilDiv q.length limit }

/-- The serialized `getUsers` response (each user `.select('-password')`). -/
def getUsersJson (store : List User) (search : String) (roleF : Option Role)
    (page limit : Nat) : Json :=
  let r := getUsers store search roleF page limit
  Json.obj
    [("users", Json.arr (r.users.map (fun u => Json.obj (selectMinusPassword (userDoc u))))),
     ("pagination", Json.obj
        [("total", Json.num r.total),
         ("page", Json.num r.page),
         ("pages", Json.num r.pages)])]

/-- The serialized `getUserById` response: the document `.select('-password')`,
or the 404 error body. -/
def getUserByIdJson (store : List User) (uid : Nat) : Json :=
  match store.find? (fun u => u.id == uid) with
  | none => Json.obj [("error", Json.str "User not found")]
  | some u => Json.obj (selectMinusPassword (userDoc u))

/-- The `getUserStats` aggregation: group users by role, count total and
active members per role. -/
def getUserStats (store : List User) : List (Role × Nat × Nat) :=
  ((store.map (fun u => u.role)).dedup).map (fun r =>
    let g := store.filter (fun u => u.role == r)
    (r, g.length, (g.filter (fun u => u.isActive)).length))

/-- The serialized `getUserStats` response: grand totals plus the per-role
breakdown (`inactiveUsers` derived as `count - activeUsers`). -/
def getUserStatsJson (store : List User) : Json :=
  let stats := getUserStats store
  let total := (stats.map (fun s => s.2.1)).sum
  let active := (stats.map (fun s => s.2.2)).sum
  Json.obj
    [("totalUsers", Json.num total),
     ("activeUsers", Json.num active),
     ("inactiveUsers", Json.num (total - active)),
     ("roleDistribution", Json.arr (stats.map (fun s =>
        Json.obj
          [("_id", Json.str (roleToString s.1)),
           ("count", Json.num s.2.1),
           ("activeUsers", Json.num s.2.2),
           ("role", Json.str (roleToString s.1)),
           ("inactiveUsers", Json.num (s.2.1 - s.2.2))])))]

/-- The `PUT /api/users/:userId` request body (all fields optional). -/
structure UserUpdateBody where
  username : Option String := none
  email : Option String := none
  role : Option Role := none
  isActive : Option Bool := none
deriving DecidableEq, Repr

/-- JavaScript's `String.trim()` (also the validator's `.trim()` sanitizer):
strip leading and trailing whitespace. -/
def jsTrim (s : String) : String :=
  String.mk (((s.data.dropWhile Char.isWhitespace).reverse.dropWhile
    Char.isWhitespace).reverse)

/-- The `userUpdateValidation` chain of `routes/users.js`: optional username
of trimmed length ≥ 3, optional well-formed email (modelled as containing a
`@`); `role` and `isActive` are enum/boolean checked, which the typed body
already guarantees.  All violations are collected. -/
def userUpdateValidation (b : UserUpdateBody) : List String :=
  (match b.username with
   | some s => if (jsTrim s).length < 3 then ["Username must be at least 3 characters long"] else []
   | none => []) ++
  (match b.email with
   | some e => if e.toList.contains '@' then [] else ["Must be a valid email address"]
   | none => [])

/-- Result of the `updateUser` handler. -/
inductive UserUpdateResult where
  | validationFailed : List String → UserUpdateResult
  | conflict : UserUpdateResult
  | notFound : UserUpdateResult
  | ok : User → UserUpdateResult
deriving DecidableEq, Repr

/-- HTTP status of each `updateUser` outcome. -/
def userUpdateStatus : UserUpdateResult → Nat
  | .validationFailed _ => 400
  | .conflict => 400
  | .notFound => 404
  | .ok _ => 200

/-- The merge `updateUser` performs on the target document: `username` and
`email` always (when provided), `role`/`isActive` only when the requester is
an admin — otherwise those body fields are dropped before the merge. -/
def applyUserUpdates (requesterRole : Role) (b : UserUpdateBody) (u : User) : User :=
  let u1 := { u with
    username := b.username.getD u.username
    email := b.email.getD u.email }
  if requesterRole = Role.admin then
    { u1 with
      role := b.role.getD u1.role
      isActive := match b.isActive with | some x => x | none => u1.isActive }
  else u1

/-- Model of `updateUser`: validation, uniqueness check against other users, then
`findByIdAndUpdate` with the (possibly restricted) merge. -/
def updateUser (store : List User) (requester : User) (targetId : Nat)
    (b : UserUpdateBody) : UserUpdateResult × List User :=
  let errs := userUpdateValidation b
  if errs ≠ [] then (.validationFailed errs, store)
  else if store.any (fun u =>
      u.id != targetId &&
      ((match b.email with | some e => u.email == e | none => false) ||
       (match b.username with | some s => u.username == s | none => false))) then
    (.conflict, store)
  else
    match store.find? (fun u => u.id == targetId) with
    | none => (.notFound, store)
    | some u =>
      let u2 := applyUserUpdates requester.role b u
      (.ok u2, store.map (fun v => if v.id == targetId then u2 else v))

/-- Result of the `deleteUser` handler. -/
inductive DeleteResult where
  | notFound
  | invalidOperation
  | ok
deriving DecidableEq, Repr

/-- HTTP status of each `deleteUser` outcome. -/
def deleteStatus : DeleteResult → Nat
  | .notFound => 404
  | .invalidOperation => 400
  | .ok => 200

/-- Model of the admin count `countDocuments` query. -/
def adminCount (store : List User) : Nat :=
  (store.filter (fun u => u.role == Role.admin)).length

/-- Model of `deleteUser` (admin-only route): 404 when absent; refuse with 400 when the
target is an admin and at most one admin exists; otherwise remove the
document. -/
def deleteUser (store : List User) (targetId : Nat) : DeleteResult × List User :=
  match store.find? (fun u => u.id == targetId) with
  | none => (.notFound, store)
  | some u =>
    if u.role == Role.admin && decide (adminCount store ≤ 1) then
      (.invalidOperation, store)
    else
      (.ok, store.eraseP (fun v => v.id == targetId))

/-- The `POST /api/auth/register` request body; `role` is the raw string from
the client (`none` when absent, `some ""` being the falsy-string case). -/
structure RegisterBody where
  username : String
  email : String
  password : String
  role : Option String := none
deriving DecidableEq, Repr

/-- Result of the `register` handler. -/
inductive RegisterResult where
  | conflict : RegisterResult
  | serverError : RegisterResult
  | created : User → RegisterResult
deriving DecidableEq, Repr

/-- HTTP status of each `register` outcome. -/
def registerStatus : RegisterResult → Nat
  | .conflict => 400
  | .serverError => 500
  | .created _ => 201

/-- Model of `role: role || 'user'` — the stored role string defaults to `'user'`
exactly when the body's role is absent or falsy (the empty string). -/
def roleOrDefault : Option String → String
  | none => "user"
  | some r => if r == "" then "user" else r

/-- The user document `register` constructs (`new User({...})` plus the
spec-modelled schema defaults: hashed credential, `isActive: true`). -/
def mkRegUser (b : RegisterBody) (ro : Role) (newId : Nat) (now : Int) : User :=
  { id := newId
    username := b.username
    email := b.email
    password := hashPassword b.password
    role := ro
    isActive := true
    lastLogin := none
    createdAt := now }

/-- Model of `register`: duplicate check on email or username, then create the user
with the caller-supplied role (or the default) and the hashed credential.
The handler takes no authenticated caller at all — registration is an open
endpoint.  Mongoose enum validation of the stored role string is modelled
from the spec (the `User` model file is absent): an out-of-enum role makes
`save()` throw, caught as a 500. -/
def register (store : List User) (b : RegisterBody) (newId : Nat) (now : Int) :
    RegisterResult × List User :=
  if store.any (fun u => u.email == b.email || u.username == b.username) then
    (.conflict, store)
  else
    match roleOfString (roleOrDefault b.role) with
    | none => (.serverError, store)
    | some ro =>
      let u := mkRegUser b ro newId now
      (.created u, store ++ [u])

/-- The `POST /api/workload` request body.  Enum-valued fields are typed
(the `isIn` checks of the validation chain reject anything else before the
handler runs); `project`/`taskName`/`hoursSpent` keep their raw form since
their rules can fail. -/
structure WorkloadCreateBody where
  project : String
  taskName : String
  taskType : TaskType
  hoursSpent : Rat
  date : Int
  status : WStatus
  priority : WPriority
  description : Option String := none
  blockers : Option String := none
  tags : List String := []
  dependencies : List Nat := []
deriving DecidableEq, Repr

/-- The `workloadCreateValidation` chain: non-empty trimmed `project` and
`taskName`, `hoursSpent` a float with `min: 0`; enum and date-format rules
are discharged by the typed body.  All violations are collected. -/
def workloadCreateValidation (b : WorkloadCreateBody) : List String :=
  (if jsTrim b.project == "" then ["Project name is required"] else []) ++
  (if jsTrim b.taskName == "" then ["Task name is required"] else []) ++
  (if b.hoursSpent < 0 then ["Hours spent must be a positive number"] else [])

/-- Result of the `createWorkload` handler. -/
inductive CreateResult where
  | validationFailed : List String → CreateResult
  | created : WorkloadData → CreateResult
deriving DecidableEq, Repr

/-- HTTP status of each `createWorkload` outcome. -/
def createStatus : CreateResult → Nat
  | .validationFailed _ => 400
  | .created _ => 201

/-- Model of `createWorkload`: check `validationResult`, then persist
`{...req.body, developer: req.user._id}` (string fields trimmed by the
validator/schema). -/
def createWorkload (wstore : List WorkloadData) (caller : User)
    (b : WorkloadCreateBody) (newId : Nat) (now : Int) :
    CreateResult × List WorkloadData :=
  let errs := workloadCreateValidation b
  if errs ≠ [] then (.validationFailed errs, wstore)
  else
    let w : WorkloadData :=
      { id := newId
        developer := caller.id
        project := jsTrim b.project
        taskName := jsTrim b.taskName
        taskType := b.taskType
        hoursSpent := b.hoursSpent
        date := b.date
        status := b.status
        priority := b.priority
        description := b.description
        blockers := b.blockers
        tags := b.tags
        dependencies := b.dependencies
        createdAt := now
        updatedAt := now }
    (.created w, wstore ++ [w])

/-- The serialized `createWorkload` response: the 400 error list, or the
created document with the owner populated password-free. -/
def createWorkloadJson (wstore : List WorkloadData) (ustore : List User)
    (caller : User) (b : WorkloadCreateBody) (newId : Nat) (now : Int) : Json :=
  match (createWorkload wstore caller b newId now).1 with
  | .validationFailed errs => Json.obj [("errors", Json.arr (errs.map Json.str))]
  | .created w => Json.obj (workloadDoc w (populatedDeveloper ustore w.developer))

/-- The `GET /api/workload` query parameters, with the handler's defaults. -/
structure WorkloadQuery where
  startDate : Option Int := none
  endDate : Option Int := none
  project : Option String := none
  status : Option WStatus := none
  taskType : Option TaskType := none
  page : Nat := 1
  limit : Nat := 10
deriving DecidableEq, Repr

/-- The Mongo query `getWorkloads` builds: the date clause only when both
bounds are present (inclusive both ends), exact-match clauses per present
filter, and a `developer` clause exactly when `ownerFilter` is set. -/
def workloadMatches (q : WorkloadQuery) (ownerFilter : Option Nat)
    (w : WorkloadData) : Bool :=
  (match q.startDate, q.endDate with
   | some s, some e => decide (s ≤ w.date) && decide (w.date ≤ e)
   | _, _ => true) &&
  (match q.project with | some p => w.project == p | none => true) &&
  (match q.status with | some s => w.status == s | none => true) &&
  (match q.taskType with | some t => w.taskType == t | none => true) &&
  (match ownerFilter with | some d => w.developer == d | none => true)

/-- The components of the `getWorkloads` response. -/
structure WorkloadPage where
  workloads : List WorkloadData
  total : Nat
  page : Nat
  pages : Nat
deriving DecidableEq, Repr

/-- The ownership filter `getWorkloads` forces: admins see everything, every
other caller only their own documents. -/
def ownerFilterFor (caller : User) : Option Nat :=
  if caller.role = Role.admin then none else some caller.id

/-- Model of `getWorkloads`: filter (with the forced ownership clause for non-admins),
sort by date descending, skip `(page-1)*limit`, take `limit`;
`total = countDocuments(query)` and `pages = Math.ceil(total/limit)`. -/
def getWorkloads (wstore : List WorkloadData) (caller : User)
    (q : WorkloadQuery) : WorkloadPage :=
  let matched := wstore.filter (workloadMatches q (ownerFilterFor caller))
  let sorted := sortDescBy (fun w => w.date) matched
  { workloads := (sorted.drop ((q.page - 1) * q.limit)).take q.limit
    total := matched.length
    page := q.page
    pages := jsCeilDiv matched.length q.limit }

/-- The serialized `getWorkloads` response (owners populated password-free). -/
def getWorkloadsJson (wstore : List WorkloadData) (ustore : List User)
    (caller : User) (q : WorkloadQuery) : Json :=
  let r := getWorkloads wstore caller q
  Json.obj
    [("workloads", Json.arr (r.workloads.map (fun w =>
        Json.obj (workloadDoc w (populatedDeveloper ustore w.developer))))),
     ("pagination", Json.obj
        [("total", Json.num r.total),
         ("page", Json.num r.page),
         ("pages", Json.num r.pages)])]

/-- One element of a developer's `workloadByType` breakdown. -/
structure TypeStat where
  taskType : TaskType
  totalHours : Rat
  taskCount : Nat
deriving DecidableEq, Repr

/-- One per-developer group of the workload-statistics pipeline. -/
structure DevStats where
  developer : Nat
  workloadByType : List TypeStat
  totalHours : Rat
  developerDoc : List (String × Json)

/-- The `WorkloadData.getWorkloadStats` static: match the date range (and the
developer when a filter is given), group by (developer, taskType) summing
hours and counting entries, regroup by developer, `$lookup`+`$unwind` the
user (dropping groups whose user is gone), and project away
`developer.password` and `developer.__v`. -/
def getWorkloadStatsPipeline (wstore : List WorkloadData) (ustore : List User)
    (sd ed : Int) (devFilter : Option Nat) : List DevStats :=
  let matched := wstore.filter (fun w =>
    decide (sd ≤ w.date) && decide (w.date ≤ ed) &&
    (match devFilter with | some d => w.developer == d | none => true))
  ((matched.map (fun w => w.developer)).dedup).filterMap (fun d =>
    match ustore.find? (fun u => u.id == d) with
    | none => none
    | some u =>
      let forDev := matched.filter (fun w => w.developer == d)
      let byType := ((forDev.map (fun w => w.taskType)).dedup).map (fun t =>
        let g := forDev.filter (fun w => w.taskType == t)
        { taskType := t
          totalHours := (g.map (fun w => w.hoursSpent)).sum
          taskCount := g.length : TypeStat })
      some
        { developer := d
          workloadByType := byType
          totalHours := (byType.map (fun t => t.totalHours)).sum
          developerDoc := (userDoc u).filter (fun p => p.1 != "password" && p.1 != "__v") })

/-- Result of the `getWorkloadStats` handler. -/
inductive StatsResult where
  | badRequest : StatsResult
  | forbidden : StatsResult
  | ok : List DevStats → StatsResult

/-- HTTP status of each `getWorkloadStats` outcome. -/
def statsStatus : StatsResult → Nat
  | .badRequest => 400
  | .forbidden => 403
  | .ok _ => 200

/-- Model of the `getWorkloadStats` handler: both dates required; a non-admin naming a
developer other than themselves is refused; the pipeline filter is
`developerId || (non-admin ? own id : null)`. -/
def getWorkloadStats (wstore : List WorkloadData) (ustore : List User)
    (caller : User) (startDate endDate : Option Int)
    (developerId : Option Nat) : StatsResult :=
  match startDate, endDate with
  | some sd, some ed =>
    if caller.role != Role.admin && (match developerId with
        | some d => d != caller.id
        | none => false) then
      .forbidden
    else
      .ok (getWorkloadStatsPipeline wstore ustore sd ed
        (match developerId with
         | some d => some d
         | none => if caller.role = Role.admin then none else some caller.id))
  | _, _ => .badRequest

/-- The serialized `getWorkloadStats` response. -/
def getWorkloadStatsJson (wstore : List WorkloadData) (ustore : List User)
    (caller : User) (startDate endDate : Option Int)
    (developerId : Option Nat) : Json :=
  match getWorkloadStats wstore ustore caller startDate endDate developerId with
  | .badRequest => Json.obj [("error", Json.str "Start and end dates are required")]
  | .forbidden => Json.obj [("error", Json.str "Access denied")]
  | .ok stats => Json.arr (stats.map (fun s =>
      Json.obj
        [("_id", Json.num s.developer),
         ("workloadByType", Json.arr (s.workloadByType.map (fun t =>
            Json.obj
              [("taskType", Json.str (taskTypeToString t.taskType)),
               ("totalHours", Json.num t.totalHours),
               ("taskCount", Json.num t.taskCount)]))),
         ("totalHours", Json.num s.totalHours),
         ("developer", Json.obj s.developerDoc)]))

/-- One group of the project-summary aggregation. -/
structure ProjectGroup where
  project : String
  totalHours : Rat
  taskCount : Nat
  completedTasks : Nat
  blockedTasks : Nat
  completionRate : Rat
deriving DecidableEq, Repr

/-- The `$group`/`$project` stages of `getProjectSummary` for one project key:
summed hours, entry count, completed and blocked counts, and
`completionRate = completedTasks / taskCount * 100`. -/
def mkProjectGroup (matched : List WorkloadData) (p : String) : ProjectGroup :=
  let g := matched.filter (fun w => w.project == p)
  let tc := g.length
  let ct := (g.filter (fun w => w.status == WStatus.completed)).length
  { project := p
    totalHours := (g.map (fun w => w.hoursSpent)).sum
    taskCount := tc
    completedTasks := ct
    blockedTasks := (g.filter (fun w => w.status == WStatus.blocked)).length
    completionRate := ((ct : Rat) / (tc : Rat)) * 100 }

/-- Model of `getProjectSummary`: match the inclusive date range, group by project,
derive the completion rate, sort by `totalHours` descending. -/
def getProjectSummary (wstore : List WorkloadData) (sd ed : Int) :
    List ProjectGroup :=
  let matched := wstore.filter (fun w =>
    decide (sd ≤ w.date) && decide (w.date ≤ ed))
  sortDescBy (fun g => g.totalHours)
    (((matched.map (fun w => w.project)).dedup).map (mkProjectGroup matched))

/-- The `PUT /api/workload/:id` request body (every field optional). -/
structure WorkloadUpdateBody where
  project : Option String := none
  taskName : Option String := none
  taskType : Option TaskType := none
  hoursSpent : Option Rat := none
  date : Option Int := none
  status : Option WStatus := none
  priority : Option WPriority := none
  description : Option String := none
  blockers : Option String := none
  tags : Option (List String) := none
  dependencies : Option (List Nat) := none
deriving DecidableEq, Repr

/-- The `workloadUpdateValidation` chain attached to the PUT route: each
present field is checked (non-empty trimmed strings, `hoursSpent` with
`min: 0`; enums/date by typing).  All violations are collected. -/
def workloadUpdateValidation (b : WorkloadUpdateBody) : List String :=
  (match b.project with
   | some p => if jsTrim p == "" then ["Project name cannot be empty"] else []
   | none => []) ++
  (match b.taskName with
   | some t => if jsTrim t == "" then ["Task name cannot be empty"] else []
   | none => []) ++
  (match b.hoursSpent with
   | some h => if h < 0 then ["Hours spent must be a positive number"] else []
   | none => [])

/-- Model of `Object.assign(workload, updates)`: merge every provided field over the
stored document. -/
def applyWorkloadUpdates (w : WorkloadData) (b : WorkloadUpdateBody) :
    WorkloadData :=
  { w with
    project := b.project.getD w.project
    taskName := b.taskName.getD w.taskName
    taskType := b.taskType.getD w.taskType
    hoursSpent := b.hoursSpent.getD w.hoursSpent
    date := b.date.getD w.date
    status := b.status.getD w.status
    priority := b.priority.getD w.priority
    description := match b.description with | some s => some s | none => w.description
    blockers := match b.blockers with | some s => some s | none => w.blockers
    tags := b.tags.getD w.tags
    dependencies := b.dependencies.getD w.dependencies }

/-- The `workloadDataSchema` validation that Mongoose runs on `save()`:
`hoursSpent` has `min: 0`, and the required string fields reject the empty
string; the enum constraints hold by typing. -/
def workloadSchemaValid (w : WorkloadData) : Bool :=
  decide (0 ≤ w.hoursSpent) && w.project != "" && w.taskName != ""

/-- Result of the `updateWorkload` handler. -/
inductive UpdateResult where
  | notFound : UpdateResult
  | forbidden : UpdateResult
  | serverError : UpdateResult
  | ok : WorkloadData → UpdateResult
deriving DecidableEq, Repr

/-- HTTP status of each `updateWorkload` outcome. -/
def updateStatus : UpdateResult → Nat
  | .notFound => 404
  | .forbidden => 403
  | .serverError => 500
  | .ok _ => 200

/-- Model of `updateWorkload`: load by id (404 when absent), refuse a requester who is
neither the owner nor an admin (403), then `Object.assign` and `save()`.
The handler never consults `validationResult`, so the route's validation
chain cannot stop it; a merge that violates the schema makes `save()` throw,
which the catch block reports as a 500. -/
def updateWorkload (wstore : List WorkloadData) (caller : User) (wid : Nat)
    (b : WorkloadUpdateBody) : UpdateResult × List WorkloadData :=
  match wstore.find? (fun w => w.id == wid) with
  | none => (.notFound, wstore)
  | some w =>
    if caller.role != Role.admin && w.developer != caller.id then
      (.forbidden, wstore)
    else
      let w2 := applyWorkloadUpdates w b
      if workloadSchemaValid w2 then
        (.ok w2, wstore.map (fun v => if v.id == wid then w2 else v))
      else
        (.serverError, wstore)

/-- The serialized `updateWorkload` response. -/
def updateWorkloadJson (wstore : List WorkloadData) (ustore : List User)
    (caller : User) (wid : Nat) (b : WorkloadUpdateBody) : Json :=
  match (updateWorkload wstore caller wid b).1 with
  | .notFound => Json.obj [("error", Json.str "Workload entry not found")]
  | .forbidden => Json.obj [("error", Json.str "Access denied")]
  | .serverError => Json.obj [("error", Json.str "Error updating workload entry")]
  | .ok w => Json.obj (workloadDoc w (populatedDeveloper ustore w.developer))

theorem adminCount_cons (a : User) (l : List User) :
    adminCount (a :: l) = (if a.role = Role.admin then 1 else 0) + adminCount l := by
  by_cases h : a.role = Role.admin
  · simp [adminCount, List.filter_cons, h, Nat.add_comm]
  · simp [adminCount, List.filter_cons, h]

theorem adminCount_eraseP_ge (l : List User) (p : User → Bool) :
    adminCount l ≤ adminCount (l.eraseP p) + 1 := by
  induction l with
  | nil => simp [adminCount]
  | cons a l ih =>
    by_cases hpa : p a = true
    · rw [List.eraseP_cons_of_pos hpa, adminCount_cons]
      by_cases h : a.role = Role.admin <;> simp [h] <;> omega
    · rw [List.eraseP_cons_of_neg hpa, adminCount_cons, adminCount_cons]
      omega

theorem adminCount_eraseP_of_not_admin (l : List User) (p : User → Bool)
    (v : User) (hf : l.find? p = some v) (hv : v.role ≠ Role.admin) :
    adminCount (l.eraseP p) = adminCount l := by
  induction l with
  | nil => simp at hf
  | cons a l ih =>
    by_cases hpa : p a = true
    · rw [List.find?_cons_of_pos _ hpa] at hf
      injection hf with h
      subst h
      rw [List.eraseP_cons_of_pos hpa, adminCount_cons]
      simp [hv]
    · rw [List.find?_cons_of_neg _ hpa] at hf
      rw [List.eraseP_cons_of_neg hpa, adminCount_cons, adminCount_cons, ih hf]

/-- C2: a delete-user request targeting an administrator fails with
`InvalidOperation` (HTTP 400) and changes nothing when exactly one
administrator exists, succeeds when at least two exist, and in every case
`deleteUser` keeps at least one administrator in the store. -/
theorem deleteUser_last_admin_guard (store : List User) (tid : Nat) (u : User)
    (hf : store.find? (fun v => v.id == tid) = some u)
    (hadm : u.role = Role.admin) :
    (adminCount store = 1 →
      deleteUser store tid = (DeleteResult.invalidOperation, store) ∧
      deleteStatus (deleteUser store tid).1 = 400) ∧
    (2 ≤ adminCount store →
      (deleteUser store tid).1 = DeleteResult.ok ∧
      (deleteUser store tid).2 = store.eraseP (fun v => v.id == tid)) ∧
    (∀ tid2 : Nat, 1 ≤ adminCount store →
      1 ≤ adminCount (deleteUser store tid2).2) := by
  refine ⟨?_, ?_, ?_⟩
  · intro h1
    have : (u.role == Role.admin && decide (adminCount store ≤ 1)) = true := by
      simp [hadm, h1]
    simp [deleteUser, hf, this, deleteStatus]
  · intro h2
    have : (u.role == Role.admin && decide (adminCount store ≤ 1)) = false := by
      simp [hadm]
      omega
    simp [deleteUser, hf, this]
  · intro tid2 hpos
    cases hf2 : store.find? (fun v => v.id == tid2) with
    | none => simpa [deleteUser, hf2] using hpos
    | some v =>
      simp only [deleteUser, hf2]
      by_cases hc : (v.role == Role.admin && decide (adminCount store ≤ 1)) = true
      · rw [if_pos hc]
        exact hpos
      · rw [if_neg hc]
        show 1 ≤ adminCount (store.eraseP (fun u => u.id == tid2))
        by_cases hva : v.role = Role.admin
        · have hge := adminCount_eraseP_ge store (fun u => u.id == tid2)
          have h2 : ¬ adminCount store ≤ 1 := by
            intro hle
            exact hc (by simp [hva, hle])
          omega
        · rw [adminCount_eraseP_of_not_admin store _ v hf2 hva]
          exact hpos

/-- Concrete admin user, matching the test fixture `admin@example.com`. -/
def uA : User :=
  { id := 1
    username := "admin"
    email := "admin@example.com"
    password := "bcrypt$admin123"
    role := Role.admin
    isActive := true
    lastLogin := none
    createdAt := 0 }

/-- Concrete regular user, matching the test fixture `user@example.com`. -/
def uB : User :=
  { id := 2
    username := "user"
    email := "user@example.com"
    password := "bcrypt$user123"
    role := Role.user
    isActive := true
    lastLogin := none
    createdAt := 1 }

/-- Concrete instance of the last-admin guard: a two-user store with a single
administrator refuses to delete them. -/
theorem deleteUser_last_admin_guard_witness :
    ([uA, uB].find? (fun v => v.id == 1) = some uA ∧ uA.role = Role.admin) ∧
    ((adminCount [uA, uB] = 1 →
        deleteUser [uA, uB] 1 = (DeleteResult.invalidOperation, [uA, uB]) ∧
        deleteStatus (deleteUser [uA, uB] 1).1 = 400) ∧
      (2 ≤ adminCount [uA, uB] →
        (deleteUser [uA, uB] 1).1 = DeleteResult.ok ∧
        (deleteUser [uA, uB] 1).2 = [uA, uB].eraseP (fun v => v.id == 1)) ∧
      (∀ tid2 : Nat, 1 ≤ adminCount [uA, uB] →
        1 ≤ adminCount (deleteUser [uA, uB] tid2).2)) :=
  ⟨⟨by decide, by decide⟩,
   deleteUser_last_admin_guard [uA, uB] 1 uA (by decide) (by decide)⟩

/-- C4: a self-update by a non-administrator whose body includes `role` or
`isActive` gets a 200 response, the stored `role` and `isActive` are
unchanged (those fields are dropped before the merge), and the provided
`username`/`email` are merged normally. -/
theorem updateUser_nonadmin_drops_role_isActive (store : List User)
    (requester u : User) (b : UserUpdateBody)
    (hrole : requester.role ≠ Role.admin)
    (hbody : b.role.isSome ∨ b.isActive.isSome)
    (hval : userUpdateValidation b = [])
    (hconf : store.any (fun v =>
      v.id != requester.id &&
      ((match b.email with | some e => v.email == e | none => false) ||
       (match b.username with | some s => v.username == s | none => false))) = false)
    (hfind : store.find? (fun v => v.id == requester.id) = some u) :
    ∃ u2 : User,
      (updateUser store requester requester.id b).1 = UserUpdateResult.ok u2 ∧
      userUpdateStatus (updateUser store requester requester.id b).1 = 200 ∧
      u2.role = u.role ∧
      u2.isActive = u.isActive ∧
      u2.username = b.username.getD u.username ∧
      u2.email = b.email.getD u.email ∧
      (updateUser store requester requester.id b).2 =
        store.map (fun v => if v.id == requester.id then u2 else v) := by
  refine ⟨applyUserUpdates requester.role b u, ?_⟩
  have happ : applyUserUpdates requester.role b u =
      { u with username := b.username.getD u.username
               email := b.email.getD u.email } := by
    simp [applyUserUpdates, hrole]
  rw [updateUser]
  simp only [hval, hconf, hfind]
  refine ⟨by simp, by simp [userUpdateStatus], ?_, ?_, ?_, ?_, by simp⟩ <;>
    simp [happ]

/-- Concrete instance of the role/isActive dropping: user `uB` sends a
self-update with `role: 'admin'`, `isActive: false` and a new username; the
stored role stays `user`, the active flag stays `true`, the username changes. -/
theorem updateUser_nonadmin_drops_role_isActive_witness :
    (uB.role ≠ Role.admin ∧
      userUpdateValidation
        { username := some "newusername", role := some Role.admin,
          isActive := some false } = [] ∧
      [uA, uB].find? (fun v => v.id == uB.id) = some uB) ∧
    ∃ u2 : User,
      (updateUser [uA, uB] uB uB.id
        { username := some "newusername", role := some Role.admin,
          isActive := some false }).1 = UserUpdateResult.ok u2 ∧
      userUpdateStatus (updateUser [uA, uB] uB uB.id
        { username := some "newusername", role := some Role.admin,
          isActive := some false }).1 = 200 ∧
      u2.role = uB.role ∧
      u2.isActive = uB.isActive ∧
      u2.username = (some "newusername").getD uB.username ∧
      u2.email = (none : Option String).getD uB.email ∧
      (updateUser [uA, uB] uB uB.id
        { username := some "newusername", role := some Role.admin,
          isActive := some false }).2 =
        [uA, uB].map (fun v => if v.id == uB.id then u2 else v) :=
  ⟨⟨by decide, by decide, by decide⟩,
   updateUser_nonadmin_drops_role_isActive [uA, uB] uB uB
     { username := some "newusername", role := some Role.admin,
       isActive := some false }
     (by decide) (Or.inl (by decide)) (by decide) (by decide) (by decide)⟩

/-- C6: every entry in a non-administrator's list-entries page is owned by
the caller, whatever filters were requested; and a non-administrator owning
no entry that matches the query receives an empty list. -/
theorem getWorkloads_nonadmin_owns_page (wstore : List WorkloadData)
    (caller : User) (q : WorkloadQuery) (hrole : caller.role ≠ Role.admin) :
    (∀ w ∈ (getWorkloads wstore caller q).workloads, w.developer = caller.id) ∧
    ((∀ w ∈ wstore, workloadMatches q (ownerFilterFor caller) w = false) →
      (getWorkloads wstore caller q).workloads = []) := by
  constructor
  · intro w hw
    have hw1 : w ∈ sortDescBy (fun w => w.date)
        (wstore.filter (workloadMatches q (ownerFilterFor caller))) :=
      List.mem_of_mem_drop (List.mem_of_mem_take hw)
    have hw2 : w ∈ wstore.filter (workloadMatches q (ownerFilterFor caller)) :=
      (mem_sortDescBy _ _ w).mp hw1
    have hmatch := List.of_mem_filter hw2
    have hof : ownerFilterFor caller = some caller.id := by
      simp [ownerFilterFor, hrole]
    rw [hof] at hmatch
    simp only [workloadMatches, Bool.and_eq_true, beq_iff_eq] at hmatch
    exact hmatch.2
  · intro hnone
    have hfil : wstore.filter (workloadMatches q (ownerFilterFor caller)) = [] := by
      rw [List.filter_eq_nil_iff]
      intro w hw
      simp [hnone w hw]
    simp [getWorkloads, hfil, sortDescBy]

/-- A concrete workload entry owned by `uB` (developer id 2). -/
def wOwn : WorkloadData :=
  { id := 10
    developer := 2
    project := "Project 1"
    taskName := "Task 1"
    taskType := TaskType.development
    hoursSpent := 4
    date := 5
    status := WStatus.completed
    priority := WPriority.high
    description := none
    blockers := none
    tags := ["sample", "test"]
    dependencies := []
    createdAt := 0
    updatedAt := 0 }

/-- A concrete workload entry owned by another developer (id 1). -/
def wOther : WorkloadData :=
  { id := 11
    developer := 1
    project := "Project 2"
    taskName := "Task 2"
    taskType := TaskType.bugFix
    hoursSpent := 2
    date := 6
    status := WStatus.inProgress
    priority := WPriority.medium
    description := none
    blockers := none
    tags := []
    dependencies := []
    createdAt := 0
    updatedAt := 0 }

/-- Fifteen entries owned by `uB`, dated `0 … 14`. -/
def sample15 : List WorkloadData :=
  (List.range 15).map (fun i =>
    { wOwn with id := 100 + i, date := (i : Int) })

/-- Concrete instance of forced ownership: with an entry of developer 1 and an
entry of developer 2 in the store, every entry in non-admin caller `uB`'s
page is their own; and with filters matching nothing of theirs the page is
empty. -/
theorem getWorkloads_nonadmin_owns_page_witness :
    uB.role ≠ Role.admin ∧
    ((∀ w ∈ (getWorkloads [wOther, wOwn] uB {}).workloads,
        w.developer = uB.id) ∧
      ((∀ w ∈ [wOther, wOwn],
          workloadMatches {} (ownerFilterFor uB) w = false) →
        (getWorkloads [wOther, wOwn] uB {}).workloads = [])) :=
  ⟨by decide, getWorkloads_nonadmin_owns_page [wOther, wOwn] uB {} (by decide)⟩

/-- C8: the list-entries response reports `pages = ⌈total / limit⌉`, its page
is exactly the slice of offsets `(page-1)*limit … page*limit-1` of the
matching entries in descending date order, and it is date-descending.  (The
handler's defaults are `page = 1`, `limit = 10`.) -/
theorem getWorkloads_pagination (wstore : List WorkloadData) (caller : User)
    (q : WorkloadQuery) (hl : 0 < q.limit) :
    ((getWorkloads wstore caller q).pages : ℕ) =
      ⌈((getWorkloads wstore caller q).total : ℚ) / (q.limit : ℚ)⌉₊ ∧
    (getWorkloads wstore caller q).workloads =
      ((sortDescBy (fun w => w.date)
        (wstore.filter (workloadMatches q (ownerFilterFor caller)))).drop
          ((q.page - 1) * q.limit)).take q.limit ∧
    (getWorkloads wstore caller q).workloads.Pairwise
      (fun a b => b.date ≤ a.date) := by
  refine ⟨?_, rfl, ?_⟩
  · exact jsCeilDiv_eq_ceil _ _ hl
  · have hsorted := pairwise_sortDescBy (fun w : WorkloadData => w.date)
      (wstore.filter (workloadMatches q (ownerFilterFor caller)))
    have hsub : (getWorkloads wstore caller q).workloads.Sublist
        (sortDescBy (fun w => w.date)
          (wstore.filter (workloadMatches q (ownerFilterFor caller)))) :=
      (List.take_sublist _ _).trans (List.drop_sublist _ _)
    exact hsorted.sublist hsub

/-- Concrete pagination instance: 15 one-owner entries with the default query
(`page = 1`, `limit = 10`) give `pages = 2` and a 10-entry first page, and
page 2 holds the remaining 5; the general theorem is applied at the same
store. -/
theorem getWorkloads_pagination_witness :
    0 < ({} : WorkloadQuery).limit ∧
    (getWorkloads sample15 uB {}).total = 15 ∧
    (getWorkloads sample15 uB {}).pages = 2 ∧
    (getWorkloads sample15 uB {}).workloads.length = 10 ∧
    (getWorkloads sample15 uB { page := 2 }).workloads.length = 5 ∧
    (((getWorkloads sample15 uB {}).pages : ℕ) =
        ⌈((getWorkloads sample15 uB {}).total : ℚ) / (({} : WorkloadQuery).limit : ℚ)⌉₊ ∧
      (getWorkloads sample15 uB {}).workloads =
        ((sortDescBy (fun w => w.date)
          (sample15.filter (workloadMatches {} (ownerFilterFor uB)))).drop
            ((({} : WorkloadQuery).page - 1) * ({} : WorkloadQuery).limit)).take
              ({} : WorkloadQuery).limit ∧
      (getWorkloads sample15 uB {}).workloads.Pairwise
        (fun a b => b.date ≤ a.date)) :=
  ⟨by decide, by decide, by decide, by decide, by decide,
   getWorkloads_pagination sample15 uB {} (by decide)⟩

theorem mem_projectSummary_shape (wstore : List WorkloadData) (sd ed : Int)
    (g : ProjectGroup) (hg : g ∈ getProjectSummary wstore sd ed) :
    ∃ p, g = mkProjectGroup
      (wstore.filter (fun w => decide (sd ≤ w.date) && decide (w.date ≤ ed))) p ∧
      p ∈ ((wstore.filter (fun w =>
        decide (sd ≤ w.date) && decide (w.date ≤ ed))).map
          (fun w => w.project)).dedup := by
  have hg1 := (mem_sortDescBy _ _ g).mp hg
  rcases List.mem_map.mp hg1 with ⟨p, hp, hgp⟩
  exact ⟨p, hgp.symm, hp⟩

/-- C7: every group of the project summary satisfies
`completionRate = completedTasks / taskCount * 100`, and the groups are
sorted by `totalHours` descending. -/
theorem getProjectSummary_rate_and_sorted (wstore : List WorkloadData)
    (sd ed : Int) :
    (∀ g ∈ getProjectSummary wstore sd ed,
      g.completionRate = (g.completedTasks : ℚ) / (g.taskCount : ℚ) * 100) ∧
    (getProjectSummary wstore sd ed).Pairwise
      (fun a b => b.totalHours ≤ a.totalHours) := by
  constructor
  · intro g hg
    rcases mem_projectSummary_shape wstore sd ed g hg with ⟨p, rfl, -⟩
    rfl
  · exact pairwise_sortDescBy _ _

/-- The `Project 1` summary group produced by `wOwn` alone: 4 hours, 1 task,
1 completed, rate 100. -/
def gP1 : ProjectGroup :=
  { project := "Project 1"
    totalHours := 4
    taskCount := 1
    completedTasks := 1
    blockedTasks := 0
    completionRate := 100 }

/-- Concrete instance of the completion-rate formula and the sort: the store
`[wOwn, wOther]` over dates `0 … 10` produces a summary whose head group is
`Project 1` (4 hours, 1 task, completed ⇒ rate 100). -/
theorem getProjectSummary_rate_and_sorted_witness :
    (gP1 ∈ getProjectSummary [wOwn, wOther] 0 10 ∧
      gP1.completionRate = (gP1.completedTasks : ℚ) / (gP1.taskCount : ℚ) * 100) ∧
    (getProjectSummary [wOwn, wOther] 0 10).Pairwise
      (fun a b => b.totalHours ≤ a.totalHours) :=
  ⟨⟨by
      norm_num [getProjectSummary, mkProjectGroup, sortDescBy, insertDescBy,
        wOwn, wOther, gP1, List.dedup]
      try simp
      try norm_num,
    (getProjectSummary_rate_and_sorted [wOwn, wOther] 0 10).1 gP1
      (by
      norm_num [getProjectSummary, mkProjectGroup, sortDescBy, insertDescBy,
        wOwn, wOther, gP1, List.dedup]
      try simp
      try norm_num)⟩,
   (getProjectSummary_rate_and_sorted [wOwn, wOther] 0 10).2⟩

/-- C9: every group the project-summary aggregation produces contains at
least one matched entry, so `taskCount ≥ 1` and the `completedTasks /
taskCount` division never divides by zero. -/
theorem getProjectSummary_taskCount_pos (wstore : List WorkloadData)
    (sd ed : Int) :
    ∀ g ∈ getProjectSummary wstore sd ed, 1 ≤ g.taskCount := by
  intro g hg
  rcases mem_projectSummary_shape wstore sd ed g hg with ⟨p, rfl, hp⟩
  have hp2 := List.mem_dedup.mp hp
  rcases List.mem_map.mp hp2 with ⟨w, hw, hwp⟩
  have hwmem : w ∈ (wstore.filter (fun w =>
      decide (sd ≤ w.date) && decide (w.date ≤ ed))).filter
        (fun v => v.project == p) :=
    List.mem_filter.mpr ⟨hw, by simp [hwp]⟩
  have := List.length_pos_of_mem hwmem
  simpa [mkProjectGroup] using this

/-- Concrete instance: the single group of a one-entry store has
`taskCount = 1`. -/
theorem getProjectSummary_taskCount_pos_witness :
    gP1 ∈ getProjectSummary [wOwn] 0 10 ∧ 1 ≤ gP1.taskCount :=
  ⟨by
     norm_num [getProjectSummary, mkProjectGroup, sortDescBy, insertDescBy,
       wOwn, gP1, List.dedup]
     try simp
     try norm_num,
   getProjectSummary_taskCount_pos [wOwn] 0 10 gP1
     (by
       norm_num [getProjectSummary, mkProjectGroup, sortDescBy, insertDescBy,
         wOwn, gP1, List.dedup]
       try simp
       try norm_num)⟩

theorem mem_statsPipeline_developer (wstore : List WorkloadData)
    (ustore : List User) (sd ed : Int) (i : Nat) (s : DevStats)
    (hs : s ∈ getWorkloadStatsPipeline wstore ustore sd ed (some i)) :
    s.developer = i := by
  rcases List.mem_filterMap.mp hs with ⟨d, hd, hds⟩
  have hdm : d ∈ (wstore.filter (fun w =>
      decide (sd ≤ w.date) && decide (w.date ≤ ed) &&
        w.developer == i)).map (fun w => w.developer) := by
    simpa using List.mem_dedup.mp hd
  rcases List.mem_map.mp hdm with ⟨w, hw, hwd⟩
  have hmatch := List.of_mem_filter hw
  simp only [Bool.and_eq_true, beq_iff_eq] at hmatch
  have hdi : d = i := by rw [← hwd]; exact hmatch.2
  subst hdi
  rcases hfind : ustore.find? (fun u => u.id == d) with - | u
  · rw [hfind] at hds
    simp at hds
  · rw [hfind] at hds
    simp only [Option.some.injEq] at hds
    rw [← hds]

/-- C5: a non-administrator requesting workload statistics for a different
developer id is refused with 403; requesting their own (explicitly or by
omission) yields 200, and every group in the result belongs to the caller. -/
theorem getWorkloadStats_nonadmin_access (wstore : List WorkloadData)
    (ustore : List User) (caller : User) (sd ed : Int)
    (developerId : Option Nat) (hrole : caller.role ≠ Role.admin) :
    (∀ d, developerId = some d → d ≠ caller.id →
      getWorkloadStats wstore ustore caller (some sd) (some ed) developerId =
        StatsResult.forbidden ∧
      statsStatus (getWorkloadStats wstore ustore caller (some sd) (some ed)
        developerId) = 403) ∧
    ((developerId = none ∨ developerId = some caller.id) →
      ∃ stats,
        getWorkloadStats wstore ustore caller (some sd) (some ed) developerId =
          StatsResult.ok stats ∧
        statsStatus (getWorkloadStats wstore ustore caller (some sd) (some ed)
          developerId) = 200 ∧
        ∀ s ∈ stats, s.developer = caller.id) := by
  constructor
  · rintro d rfl hne
    have hcond : (caller.role != Role.admin && (d != caller.id)) = true := by
      simp [hrole, hne]
    constructor
    · simp [getWorkloadStats, hcond]
    · simp [getWorkloadStats, hcond, statsStatus]
  · rintro (rfl | rfl)
    · refine ⟨getWorkloadStatsPipeline wstore ustore sd ed (some caller.id),
        ?_, ?_, ?_⟩
      · simp [getWorkloadStats, hrole]
      · simp [getWorkloadStats, hrole, statsStatus]
      · intro s hs
        exact mem_statsPipeline_developer wstore ustore sd ed caller.id s hs
    · refine ⟨getWorkloadStatsPipeline wstore ustore sd ed (some caller.id),
        ?_, ?_, ?_⟩
      · simp [getWorkloadStats]
      · simp [getWorkloadStats, statsStatus]
      · intro s hs
        exact mem_statsPipeline_developer wstore ustore sd ed caller.id s hs

/-- Concrete instance of the statistics access rule: non-admin `uB` (id 2) is
refused developer id 1 with 403, and their own statistics come back 200 with
every group theirs. -/
theorem getWorkloadStats_nonadmin_access_witness :
    uB.role ≠ Role.admin ∧
    ((∀ d, (some 1 : Option Nat) = some d → d ≠ uB.id →
      getWorkloadStats [wOwn, wOther] [uA, uB] uB (some 0) (some 10) (some 1) =
        StatsResult.forbidden ∧
      statsStatus (getWorkloadStats [wOwn, wOther] [uA, uB] uB (some 0)
        (some 10) (some 1)) = 403) ∧
    (((some 1 : Option Nat) = none ∨ (some 1 : Option Nat) = some uB.id) →
      ∃ stats,
        getWorkloadStats [wOwn, wOther] [uA, uB] uB (some 0) (some 10) (some 1) =
          StatsResult.ok stats ∧
        statsStatus (getWorkloadStats [wOwn, wOther] [uA, uB] uB (some 0)
          (some 10) (some 1)) = 200 ∧
        ∀ s ∈ stats, s.developer = uB.id)) :=
  ⟨by decide,
   getWorkloadStats_nonadmin_access [wOwn, wOther] [uA, uB] uB 0 10 (some 1)
     (by decide)⟩

/-- C10: the register handler stores the caller-supplied role verbatim for
every value of the role enum (including `'admin'`), and assigns the default
role `'user'` exactly when the body's role is absent or falsy; the handler
takes no authenticated caller, so no administrator gate exists. -/
theorem register_role_not_restricted (store : List User) (b : RegisterBody)
    (newId : Nat) (now : Int)
    (hconf : store.any (fun u =>
      u.email == b.email || u.username == b.username) = false) :
    (∀ r ro, b.role = some r → roleOfString r = some ro →
      ∃ u, (register store b newId now).1 = RegisterResult.created u ∧
        u.role = ro ∧
        registerStatus (register store b newId now).1 = 201 ∧
        (register store b newId now).2 = store ++ [u]) ∧
    ((b.role = none ∨ b.role = some "") →
      ∃ u, (register store b newId now).1 = RegisterResult.created u ∧
        u.role = Role.user ∧
        (register store b newId now).2 = store ++ [u]) := by
  constructor
  · intro r ro hbr hro
    have hr : r ≠ "" := by
      intro h
      rw [h] at hro
      simp [roleOfString] at hro
    have hrd : roleOrDefault b.role = r := by
      rw [hbr]
      simp [roleOrDefault, hr]
    have hreg : register store b newId now =
        (RegisterResult.created (mkRegUser b ro newId now),
          store ++ [mkRegUser b ro newId now]) := by
      simp [register, hconf, hrd, hro]
    exact ⟨mkRegUser b ro newId now, by rw [hreg], rfl,
      by rw [hreg]; rfl, by rw [hreg]⟩
  · intro hcase
    have hrd : roleOrDefault b.role = "user" := by
      rcases hcase with h | h <;> rw [h] <;> simp [roleOrDefault]
    have hreg : register store b newId now =
        (RegisterResult.created (mkRegUser b Role.user newId now),
          store ++ [mkRegUser b Role.user newId now]) := by
      simp [register, hconf, hrd, roleOfString]
    exact ⟨mkRegUser b Role.user newId now, by rw [hreg], rfl, by rw [hreg]⟩

/-- A registration body that supplies `role: 'admin'`. -/
def rbAdmin : RegisterBody :=
  { username := "eve"
    email := "eve@example.com"
    password := "pw123456"
    role := some "admin" }

/-- Concrete instance of open role assignment: registering with
`role: 'admin'` against a store that has no conflicting user stores an
admin-role user, and registering with no role field stores a `user`-role
user. -/
theorem register_role_not_restricted_witness :
    ([uA, uB].any (fun u =>
      u.email == rbAdmin.email || u.username == rbAdmin.username) = false) ∧
    ((∀ r ro, (some "admin" : Option String) = some r → roleOfString r = some ro →
      ∃ u, (register [uA, uB] rbAdmin 3 7).1 = RegisterResult.created u ∧
        u.role = ro ∧
        registerStatus (register [uA, uB] rbAdmin 3 7).1 = 201 ∧
        (register [uA, uB] rbAdmin 3 7).2 = [uA, uB] ++ [u]) ∧
    (((some "admin" : Option String) = none ∨
        (some "admin" : Option String) = some "") →
      ∃ u, (register [uA, uB] rbAdmin 3 7).1 = RegisterResult.created u ∧
        u.role = Role.user ∧
        (register [uA, uB] rbAdmin 3 7).2 = [uA, uB] ++ [u])) :=
  ⟨by decide,
   register_role_not_restricted [uA, uB] rbAdmin 3 7 (by decide)⟩

/-- An update body carrying a negative `hoursSpent`. -/
def negUpd : WorkloadUpdateBody :=
  { hoursSpent := some (-1) }

/-- A create body carrying a negative `hoursSpent`. -/
def negCreate : WorkloadCreateBody :=
  { project := "Test Project"
    taskName := "Test Task"
    taskType := TaskType.development
    hoursSpent := -1
    date := 0
    status := WStatus.inProgress
    priority := WPriority.medium }

/-- C3, evaluated at the failing input: the owner updates entry 10 with
`hoursSpent: -1`.  The route's own validation chain flags the violation, yet
the handler (which never consults `validationResult`) answers 500 — not the
claimed 400 `ValidationFailed` — while the store stays unchanged; the create
path with the same negative value does answer 400 with the violation list. -/
theorem updateWorkload_negative_hours_divergence :
    workloadUpdateValidation negUpd = ["Hours spent must be a positive number"] ∧
    updateWorkload [wOwn] uB 10 negUpd = (UpdateResult.serverError, [wOwn]) ∧
    updateStatus (updateWorkload [wOwn] uB 10 negUpd).1 = 500 ∧
    createWorkload [] uB negCreate 20 0 =
      (CreateResult.validationFailed ["Hours spent must be a positive number"], []) ∧
    createStatus (createWorkload [] uB negCreate 20 0).1 = 400 := by
  refine ⟨by decide, by decide, by decide, by decide, by decide⟩

theorem itemsHasKey_eq_false (k : String) (js : List Json)
    (h : ∀ j ∈ js, jsonHasKey k j = false) : itemsHasKey k js = false := by
  induction js with
  | nil => simp [itemsHasKey]
  | cons j js ih =>
    simp [itemsHasKey, h j (List.mem_cons_self j js),
      ih (fun x hx => h x (List.mem_cons_of_mem j hx))]

theorem itemsHasKey_map_str (k : String) (l : List String) :
    itemsHasKey k (l.map Json.str) = false := by
  refine itemsHasKey_eq_false k _ ?_
  intro j hj
  rcases List.mem_map.mp hj with ⟨s, -, rfl⟩
  simp [jsonHasKey]

theorem itemsHasKey_map_num (k : String) (l : List Nat) :
    itemsHasKey k (l.map (fun d => Json.num d)) = false := by
  refine itemsHasKey_eq_false k _ ?_
  intro j hj
  rcases List.mem_map.mp hj with ⟨s, -, rfl⟩
  simp [jsonHasKey]

theorem hasKey_pw_userDocStripped (u : User) :
    jsonHasKey "password" (Json.obj (selectMinusPassword (userDoc u))) = false := by
  cases hll : u.lastLogin with
  | none =>
    simp [jsonHasKey, fieldsHasKey, selectMinusPassword, userDoc, hll]
  | some t =>
    simp [jsonHasKey, fieldsHasKey, selectMinusPassword, userDoc, hll]

theorem hasKey_pw_devDocStripped (u : User) :
    jsonHasKey "password"
      (Json.obj ((userDoc u).filter
        (fun p => p.1 != "password" && p.1 != "__v"))) = false := by
  cases hll : u.lastLogin with
  | none => simp [jsonHasKey, fieldsHasKey, userDoc, hll]
  | some t => simp [jsonHasKey, fieldsHasKey, userDoc, hll]

theorem hasKey_pw_populatedDeveloper (ustore : List User) (d : Nat) :
    jsonHasKey "password" (populatedDeveloper ustore d) = false := by
  unfold populatedDeveloper
  cases ustore.find? (fun u => u.id == d) with
  | none => simp [jsonHasKey]
  | some u => exact hasKey_pw_userDocStripped u

theorem itemsHasKey_map (k : String) {α : Type} (f : α → Json) (l : List α)
    (h : ∀ a, jsonHasKey k (f a) = false) : itemsHasKey k (l.map f) = false := by
  refine itemsHasKey_eq_false k _ ?_
  intro j hj
  rcases List.mem_map.mp hj with ⟨a, -, rfl⟩
  exact h a

theorem hasKey_pw_workloadDoc (w : WorkloadData) (dev : Json)
    (hdev : jsonHasKey "password" dev = false) :
    jsonHasKey "password" (Json.obj (workloadDoc w dev)) = false := by
  cases hd : w.description <;> cases hb : w.blockers <;>
    (simp [jsonHasKey, fieldsHasKey, workloadDoc, hd, hb, hdev,
       itemsHasKey_map_str]
     refine itemsHasKey_map _ _ _ ?_
     intro a
     simp [jsonHasKey])

theorem hasKey_pw_getUsersJson (store : List User) (search : String)
    (roleF : Option Role) (page limit : Nat) :
    jsonHasKey "password" (getUsersJson store search roleF page limit) = false := by
  simp only [getUsersJson, jsonHasKey, fieldsHasKey]
  simp [jsonHasKey, fieldsHasKey]
  refine itemsHasKey_map _ _ _ ?_
  intro u
  exact hasKey_pw_userDocStripped u

theorem hasKey_pw_getUserByIdJson (store : List User) (uid : Nat) :
    jsonHasKey "password" (getUserByIdJson store uid) = false := by
  unfold getUserByIdJson
  cases store.find? (fun u => u.id == uid) with
  | none => simp [jsonHasKey, fieldsHasKey]
  | some u => exact hasKey_pw_userDocStripped u

theorem hasKey_pw_getUserStatsJson (store : List User) :
    jsonHasKey "password" (getUserStatsJson store) = false := by
  simp [getUserStatsJson, jsonHasKey, fieldsHasKey]
  refine itemsHasKey_map _ _ _ ?_
  intro s
  simp [jsonHasKey, fieldsHasKey]

theorem hasKey_pw_getWorkloadsJson (wstore : List WorkloadData)
    (ustore : List User) (caller : User) (q : WorkloadQuery) :
    jsonHasKey "password" (getWorkloadsJson wstore ustore caller q) = false := by
  simp [getWorkloadsJson, jsonHasKey, fieldsHasKey]
  refine itemsHasKey_map _ _ _ ?_
  intro w
  exact hasKey_pw_workloadDoc w _ (hasKey_pw_populatedDeveloper ustore w.developer)

theorem mem_statsPipeline_devDoc (wstore : List WorkloadData)
    (ustore : List User) (sd ed : Int) (devF : Option Nat) (s : DevStats)
    (hs : s ∈ getWorkloadStatsPipeline wstore ustore sd ed devF) :
    ∃ u, s.developerDoc =
      (userDoc u).filter (fun p => p.1 != "password" && p.1 != "__v") := by
  rcases List.mem_filterMap.mp hs with ⟨d, -, hds⟩
  cases hfind : ustore.find? (fun u => u.id == d) with
  | none =>
    rw [hfind] at hds
    simp at hds
  | some u =>
    rw [hfind] at hds
    simp only [Option.some.injEq] at hds
    exact ⟨u, by rw [← hds]⟩

theorem hasKey_pw_statsGroups (wstore : List WorkloadData) (ustore : List User)
    (sd ed : Int) (devF : Option Nat) :
    itemsHasKey "password"
      ((getWorkloadStatsPipeline wstore ustore sd ed devF).map (fun s =>
        Json.obj
          [("_id", Json.num s.developer),
           ("workloadByType", Json.arr (s.workloadByType.map (fun t =>
              Json.obj
                [("taskType", Json.str (taskTypeToString t.taskType)),
                 ("totalHours", Json.num t.totalHours),
                 ("taskCount", Json.num t.taskCount)]))),
           ("totalHours", Json.num s.totalHours),
           ("developer", Json.obj s.developerDoc)])) = false := by
  refine itemsHasKey_eq_false _ _ ?_
  intro j hj
  rcases List.mem_map.mp hj with ⟨s, hsmem, rfl⟩
  rcases mem_statsPipeline_devDoc wstore ustore sd ed devF s hsmem with ⟨u, hdoc⟩
  simp [jsonHasKey, fieldsHasKey, hdoc]
  constructor
  · refine itemsHasKey_map _ _ _ ?_
    intro t
    simp [jsonHasKey, fieldsHasKey]
  · cases hll : u.lastLogin <;> simp [jsonHasKey]

theorem hasKey_pw_getWorkloadStatsJson (wstore : List WorkloadData)
    (ustore : List User) (caller : User) (sdO edO : Option Int)
    (devF : Option Nat) :
    jsonHasKey "password"
      (getWorkloadStatsJson wstore ustore caller sdO edO devF) = false := by
  unfold getWorkloadStatsJson
  cases sdO with
  | none => simp [getWorkloadStats, jsonHasKey, fieldsHasKey]
  | some sd =>
    cases edO with
    | none => simp [getWorkloadStats, jsonHasKey, fieldsHasKey]
    | some ed =>
      unfold getWorkloadStats
      by_cases hc : (caller.role != Role.admin && (match devF with
          | some d => d != caller.id
          | none => false)) = true
      · simp only [hc, if_true]
        simp [jsonHasKey, fieldsHasKey]
      · simp only [Bool.not_eq_true] at hc
        simp only [hc, Bool.false_eq_true, if_false]
        simp only [jsonHasKey]
        exact hasKey_pw_statsGroups wstore ustore sd ed _

theorem hasKey_pw_createWorkloadJson (wstore : List WorkloadData)
    (ustore : List User) (caller : User) (b : WorkloadCreateBody)
    (newId : Nat) (now : Int) :
    jsonHasKey "password"
      (createWorkloadJson wstore ustore caller b newId now) = false := by
  unfold createWorkloadJson
  cases (createWorkload wstore caller b newId now).1 with
  | validationFailed errs =>
    simp [jsonHasKey, fieldsHasKey, itemsHasKey_map_str]
  | created w =>
    exact hasKey_pw_workloadDoc w _ (hasKey_pw_populatedDeveloper ustore w.developer)

theorem hasKey_pw_updateWorkloadJson (wstore : List WorkloadData)
    (ustore : List User) (caller : User) (wid : Nat)
    (b : WorkloadUpdateBody) :
    jsonHasKey "password"
      (updateWorkloadJson wstore ustore caller wid b) = false := by
  unfold updateWorkloadJson
  cases (updateWorkload wstore caller wid b).1 with
  | notFound => simp [jsonHasKey, fieldsHasKey]
  | forbidden => simp [jsonHasKey, fieldsHasKey]
  | serverError => simp [jsonHasKey, fieldsHasKey]
  | ok w =>
    exact hasKey_pw_workloadDoc w _ (hasKey_pw_populatedDeveloper ustore w.developer)

/-- C1: the stored password hash never appears — as a field at any depth —
in the serialized responses of the user list, user detail, user statistics,
the credential-stripped profile projection (register/login/profile), the
workload list, the workload statistics, or the entry create/update
handlers. -/
theorem no_password_in_any_response (ustore : List User)
    (wstore : List WorkloadData) (caller : User) (search : String)
    (roleF : Option Role) (page limit uid : Nat) (q : WorkloadQuery)
    (sdO edO : Option Int) (devF : Option Nat) (cb : WorkloadCreateBody)
    (newId : Nat) (now : Int) (wid : Nat) (ub : WorkloadUpdateBody) :
    jsonHasKey "password" (getUsersJson ustore search roleF page limit) = false ∧
    jsonHasKey "password" (getUserByIdJson ustore uid) = false ∧
    jsonHasKey "password" (getUserStatsJson ustore) = false ∧
    jsonHasKey "password" (Json.obj (getPublicProfile caller)) = false ∧
    jsonHasKey "password" (getWorkloadsJson wstore ustore caller q) = false ∧
    jsonHasKey "password"
      (getWorkloadStatsJson wstore ustore caller sdO edO devF) = false ∧
    jsonHasKey "password"
      (createWorkloadJson wstore ustore caller cb newId now) = false ∧
    jsonHasKey "password"
      (updateWorkloadJson wstore ustore caller wid ub) = false :=
  ⟨hasKey_pw_getUsersJson ustore search roleF page limit,
   hasKey_pw_getUserByIdJson ustore uid,
   hasKey_pw_getUserStatsJson ustore,
   hasKey_pw_userDocStripped caller,
   hasKey_pw_getWorkloadsJson wstore ustore caller q,
   hasKey_pw_getWorkloadStatsJson wstore ustore caller sdO edO devF,
   hasKey_pw_createWorkloadJson wstore ustore caller cb newId now,
   hasKey_pw_updateWorkloadJson wstore ustore caller wid ub⟩
